import Mathlib

/-!
Shallow embedding of the conversation cost estimator in
src/client/src/components/Chat/ConversationCost.tsx.

Numbers are modelled with ℚ, strings with String, and JavaScript
truthiness of optional numeric/string fields is made explicit
(absent or zero / absent or empty count as falsy).
-/

namespace ConversationCost

/-- Whether the second character list starts with the first one: the empty
pattern leads every list, a nonempty pattern never leads the empty list, and
otherwise the heads must agree and the tails recurse. -/
def leadsWith : List Char → List Char → Bool
  | [], _ => true
  | _ :: _, [] => false
  | a :: as, b :: bs => decide (a = b) && leadsWith as bs

/-- Whether `pat` occurs as a contiguous run inside the second list: it
leads the list at some position (in the empty list only the empty pattern
occurs). -/
def subOf (pat : List Char) : List Char → Bool
  | [] => pat.isEmpty
  | a :: as => leadsWith pat (a :: as) || subOf pat as

/-- JavaScript `s.includes(t)`. -/
def jsIncludes (s t : String) : Bool :=
  subOf t.data s.data

/-- `leadsWith` is the list prefix relation. -/
lemma leadsWith_iff : ∀ pat l : List Char, leadsWith pat l = true ↔ pat <+: l
  | [], l => by simp [leadsWith]
  | a :: as, [] => by simp [leadsWith]
  | a :: as, b :: bs => by
    rw [leadsWith, Bool.and_eq_true, decide_eq_true_eq, List.cons_prefix_cons,
      leadsWith_iff as bs]

/-- `subOf` is the contiguous-substring (infix) relation. -/
lemma subOf_iff : ∀ (pat l : List Char), subOf pat l = true ↔ pat <:+: l
  | pat, [] => by simp [subOf]
  | pat, a :: as => by
    rw [subOf, Bool.or_eq_true, leadsWith_iff, subOf_iff pat as, List.infix_cons_iff]

/-- `jsIncludes s t` holds exactly when the characters of `t` occur
contiguously inside the characters of `s`, which is JavaScript
`s.includes(t)`. -/
lemma jsIncludes_iff (s t : String) : jsIncludes s t = true ↔ t.data <:+: s.data :=
  subOf_iff t.data s.data

/-- JavaScript `s.toLowerCase()` (ASCII, as used by the model keys). -/
def toLowerStr (s : String) : String :=
  String.mk (s.data.map Char.toLower)

/-- MODEL_PRICING table of lines 10-44, in declaration order (which is the
JavaScript enumeration order of its string keys). Rates are per 1M tokens;
non-integer rates are written as reduced fractions via `Rat.mk'` so that
every table value is a literal the evaluator can reduce: 0.375 = 3/8,
3.5 = 7/2, 37.5 = 75/2, 7.5 = 15/2, 2.4 = 12/5, 0.75 = 3/4, 0.8 = 4/5,
6.25 = 25/4, 0.1875 = 3/16. -/
def MODEL_PRICING : List (String × ℚ) :=
  [ (("gpt-4o"), 10),
    (("gpt-4o-mini"), Rat.mk' 3 8 (by norm_num) (by norm_num)),
    (("gpt-4-turbo"), 20),
    (("gpt-4"), 45),
    (("gpt-4-0613"), 45),
    (("gpt-4-0314"), 45),
    (("gpt-4-32k"), 90),
    (("gpt-3.5-turbo"), 1),
    (("gpt-3.5-turbo-16k"), Rat.mk' 7 2 (by norm_num) (by norm_num)),
    (("o1"), Rat.mk' 75 2 (by norm_num) (by norm_num)),
    (("o1-mini"), Rat.mk' 15 2 (by norm_num) (by norm_num)),
    (("o1-preview"), Rat.mk' 75 2 (by norm_num) (by norm_num)),
    (("claude-3-5-sonnet"), 9),
    (("claude-3-5-haiku"), Rat.mk' 12 5 (by norm_num) (by norm_num)),
    (("claude-3-opus"), 45),
    (("claude-3-sonnet"), 9),
    (("claude-3-haiku"), Rat.mk' 3 4 (by norm_num) (by norm_num)),
    (("claude-2.1"), 16),
    (("claude-2"), 16),
    (("claude-instant"), Rat.mk' 4 5 (by norm_num) (by norm_num)),
    (("gemini-1.5-pro"), Rat.mk' 25 4 (by norm_num) (by norm_num)),
    (("gemini-1.5-flash"), Rat.mk' 3 8 (by norm_num) (by norm_num)),
    (("gemini-1.5-flash-8b"), Rat.mk' 3 16 (by norm_num) (by norm_num)),
    (("gemini-pro"), 1),
    (("gemini-2.0"), Rat.mk' 3 8 (by norm_num) (by norm_num)),
    (("default"), 1) ]

/-- Property read `MODEL_PRICING[k]`: the rate stored under key `k`, if any. -/
def findPrice (k : String) : Option ℚ :=
  (MODEL_PRICING.find? (fun p => decide (p.1 = k))).map (fun p => p.2)

/-- The table's `default` entry (`MODEL_PRICING.default`). -/
def dfltPrice : ℚ :=
  (findPrice ("default")).getD 0

/-- JavaScript `x || d` on an optional number: `d` when `x` is absent or 0. -/
def jsNumOr (x : Option ℚ) (d : ℚ) : ℚ :=
  match x with
  | some v => if v = 0 then d else v
  | none => d

/-- Predicate of the generic substring scan on line 65: the lowercase
identifier contains the lowercase key or vice versa. -/
def scanPred (modelLower : String) (p : String × ℚ) : Bool :=
  jsIncludes modelLower (toLowerStr p.1) || jsIncludes (toLowerStr p.1) modelLower

/-- The ordered (pattern, canonical key) pairs of the provider cascade on
lines 71-87: the first pattern contained in the lowercase identifier wins. -/
def CASCADE_RULES : List (String × String) :=
  [ (("gpt-4-32k"), ("gpt-4-32k")),
    (("gpt-4"), ("gpt-4")),
    (("gpt-3.5-turbo-16k"), ("gpt-3.5-turbo-16k")),
    (("gpt-3.5"), ("gpt-3.5-turbo")),
    (("claude-3-opus"), ("claude-3-opus")),
    (("claude-3-sonnet"), ("claude-3-sonnet")),
    (("claude-3-haiku"), ("claude-3-haiku")),
    (("claude-3-5"), ("claude-3-5-sonnet")),
    (("claude-2"), ("claude-2")),
    (("claude-instant"), ("claude-instant")),
    (("claude"), ("claude-3-haiku")),
    (("gemini-1.5-pro"), ("gemini-1.5-pro")),
    (("gemini-1.5-flash"), ("gemini-1.5-flash")),
    (("gemini"), ("gemini-1.5-flash")),
    (("o1-preview"), ("o1-preview")),
    (("o1-mini"), ("o1-mini")),
    (("o1"), ("o1")) ]

/-- Hard-coded provider cascade of lines 71-89, applied when the generic
scan found nothing: the if-else chain is the first-match scan of
`CASCADE_RULES`, with "default" when no pattern matches. -/
def cascade (modelLower : String) : String :=
  ((CASCADE_RULES.find? (fun r => jsIncludes modelLower r.1)).map (fun r => r.2)).getD
    ("default")

/-- getBaseModel of lines 55-90: exact table hit, then the generic
case-insensitive bidirectional substring scan over the table keys in
declaration order, then the hard-coded provider cascade. -/
def getBaseModel (model : Option String) : String :=
  match model with
  | none => "default"
  | some m =>
    if m = "" then "default"
    else
      let modelLower := toLowerStr m
      if (findPrice m).getD 0 ≠ 0 then m
      else
        match MODEL_PRICING.find? (scanPred modelLower) with
        | some p => p.1
        | none => cascade modelLower

/-- Price resolution as performed on lines 202-203:
`MODEL_PRICING[getBaseModel(model)] || MODEL_PRICING.default`. -/
def resolvePrice (model : Option String) : ℚ :=
  jsNumOr (findPrice (getBaseModel model)) dfltPrice

/-- estimateTokens of lines 47-52: `Math.ceil(text.length / 4)`, 0 on the
empty string. -/
def estimateTokens (text : String) : ℕ :=
  if text = "" then 0 else (text.length + 3) / 4

/-- The `usage` sub-object (OpenAI style), fields optional. -/
structure Usage where
  prompt_tokens : Option ℕ
  completion_tokens : Option ℕ
deriving DecidableEq

/-- The `tokens` sub-object (alternative style), fields optional. -/
structure Tokens where
  prompt : Option ℕ
  input : Option ℕ
  completion : Option ℕ
  output : Option ℕ
deriving DecidableEq

/-- The costing-relevant fields of a TMessage. Optional fields are `Option`;
an absent property is `none`. -/
structure Message where
  messageId : String
  conversationId : String
  isCreatedByUser : Bool
  model : Option String
  tokenCount : Option ℕ
  usage : Option Usage
  tokens : Option Tokens
  text : Option String
deriving DecidableEq

/-- JavaScript `x || d` on an optional natural: `d` when absent or 0. -/
def natOr (x : Option ℕ) (d : ℕ) : ℕ :=
  match x with
  | some v => if v = 0 then d else v
  | none => d

/-- Token count extraction of lines 168-190: `tokenCount` when truthy, else
the `usage` object, else the `tokens` object, else the text heuristic
(flagged estimated), else 0. -/
def extractTokens (m : Message) : ℕ × Bool :=
  if m.tokenCount.getD 0 ≠ 0 then (m.tokenCount.getD 0, false)
  else
    match m.usage with
    | some u => (u.prompt_tokens.getD 0 + u.completion_tokens.getD 0, false)
    | none =>
      match m.tokens with
      | some t => (natOr t.prompt (t.input.getD 0) + natOr t.completion (t.output.getD 0), false)
      | none =>
        match m.text with
        | some s => if s ≠ "" then (estimateTokens s, true) else (0, false)
        | none => (0, false)

/-- JavaScript truthiness of an optional string field. -/
def jsStr (x : Option String) : Option String :=
  match x with
  | some s => if s = "" then none else some s
  | none => none

/-- Effective model of line 199:
`message.model || allMessages.find((m) => m.model)?.model`. -/
def effModel (m : Message) (msgs : List Message) : Option String :=
  match jsStr m.model with
  | some s => some s
  | none =>
    match msgs.find? (fun mm => (jsStr mm.model).isSome) with
    | some mm => jsStr mm.model
    | none => none

/-- Cost of one message, lines 201-207: resolve the price of the effective
model (or of the `gpt-3.5-turbo` default), discount estimated counts by
0.85, and price per million tokens. -/
def messageCost (msgs : List Message) (m : Message) : ℚ :=
  let tc := (extractTokens m).1
  let isEst := (extractTokens m).2
  let model := (effModel m msgs).getD ("gpt-3.5-turbo")
  let price := jsNumOr (findPrice (getBaseModel (some model))) dfltPrice
  let adjusted : ℚ := if isEst then (tc : ℚ) * (85/100) else (tc : ℚ)
  adjusted / 1000000 * price

/-- JavaScript `Map.get`. -/
def mapGet (ms : List (String × ℚ)) (k : String) : Option ℚ :=
  (ms.find? (fun p => decide (p.1 = k))).map (fun p => p.2)

/-- JavaScript `Map.set`: update in place, or append a new key. Insertion
order of existing keys is preserved, as in a JS Map. -/
def mapSet : List (String × ℚ) → String → ℚ → List (String × ℚ)
  | [], k, v => [(k, v)]
  | (k', v') :: rest, k, v =>
    if k' = k then (k', v) :: rest else (k', v') :: mapSet rest k v

/-- One iteration of the forEach loop of lines 168-217, acting on the
accumulator (totalCost, totalTokens, modelCosts). -/
def stepMsg (msgs : List Message) (acc : ℚ × ℕ × List (String × ℚ)) (m : Message) :
    ℚ × ℕ × List (String × ℚ) :=
  let tc := (extractTokens m).1
  if tc = 0 then acc
  else
    let tt := acc.2.1 + tc
    match effModel m msgs with
    | some model =>
      let mc := messageCost msgs m
      (acc.1 + mc, tt, mapSet acc.2.2 model ((mapGet acc.2.2 model).getD 0 + mc))
    | none =>
      if m.isCreatedByUser then (acc.1 + messageCost msgs m, tt, acc.2.2)
      else (acc.1, tt, acc.2.2)

/-- The whole forEach loop, started from (0, 0, empty map). -/
def aggLoop (msgs : List Message) : ℚ × ℕ × List (String × ℚ) :=
  msgs.foldl (stepMsg msgs) (0, 0, [])

/-- Accumulated `totalCost` of the loop. -/
def totalCostOf (msgs : List Message) : ℚ :=
  (aggLoop msgs).1

/-- Accumulated `totalTokens` of the loop. -/
def totalTokensOf (msgs : List Message) : ℕ :=
  (aggLoop msgs).2.1

/-- Accumulated per-model cost map of the loop, in insertion order. -/
def modelCostsOf (msgs : List Message) : List (String × ℚ) :=
  (aggLoop msgs).2.2

/-- The primary-model fold of lines 219-227: strict `cost > maxCost`
starting from ("Unknown", 0). -/
def primLoop : List (String × ℚ) → String → ℚ → String
  | [], best, _ => best
  | (k, c) :: rest, best, maxCost =>
    if maxCost < c then primLoop rest k c else primLoop rest best maxCost

/-- Primary model selection over the per-model cost map. -/
def selectPrimary (l : List (String × ℚ)) : String :=
  primLoop l ("Unknown") 0

/-- Pad a digit string with leading zeros up to width `n`. -/
def padZeros (s : String) (n : ℕ) : String :=
  String.mk (List.replicate (n - s.length) ('0')) ++ s

/-- JavaScript `cost.toFixed(n)` for a nonnegative cost `c = p/q` in lowest
terms: the rounded scaled value is `round-half-up (c * 10^n)`, computed on
numerator and denominator as `(2 * p * 10^n + q) / (2 * q)` in integer
arithmetic, then rendered with `n` fraction digits. -/
def toFixedStr (c : ℚ) (n : ℕ) : String :=
  let m := (2 * c.num.toNat * 10 ^ n + c.den) / (2 * c.den)
  Nat.repr (m / 10 ^ n) ++ "." ++ padZeros (Nat.repr (m % 10 ^ n)) n

/-- formatCost of lines 230-236; the thresholds 0.001 and 0.01 are written
as the reduced fractions 1/1000 and 1/100 via `Rat.mk'`. -/
def formatCost (cost : ℚ) : String :=
  if cost = 0 then "$0.00"
  else if cost < Rat.mk' 1 1000 (by norm_num) (by norm_num) then "<$0.001"
  else if cost < Rat.mk' 1 100 (by norm_num) (by norm_num) then "$" ++ toFixedStr cost 4
  else if cost < 1 then "$" ++ toFixedStr cost 3
  else "$" ++ toFixedStr cost 2

/-- The summary record produced by the costData memo (lines 238-244); the
wall-clock `lastUpdated` field is outside the embedding. -/
structure CostSummary where
  totalCost : String
  totalCostRaw : ℚ
  primaryModel : String
  totalTokens : ℕ
deriving DecidableEq

/-- costData of lines 158-245 as a function of the message snapshot:
`null` on an empty sequence, otherwise the aggregated summary. -/
def aggregate (msgs : List Message) : Option CostSummary :=
  if msgs.isEmpty then none
  else
    some
      { totalCost := formatCost (totalCostOf msgs)
        totalCostRaw := totalCostOf msgs
        primaryModel := selectPrimary (modelCostsOf msgs)
        totalTokens := totalTokensOf msgs }

/-- First-argument-preferring merge of optional fields: the spread
`{...a, ...b}` keeps `a`'s value only where `b` has none. -/
def orO {α : Type} (b a : Option α) : Option α :=
  match b with
  | some x => some x
  | none => a

/-- Field overlay `{...a, ...b}` of line 147: fields of `b` (the in-flight
message) win wherever present. -/
def overlay (a b : Message) : Message :=
  { messageId := b.messageId
    conversationId := b.conversationId
    isCreatedByUser := b.isCreatedByUser
    model := orO b.model a.model
    tokenCount := orO b.tokenCount a.tokenCount
    usage := orO b.usage a.usage
    tokens := orO b.tokens a.tokens
    text := orO b.text a.text }

/-- Overlay the in-flight message onto the first entry with its messageId
(findIndex + in-place update of lines 144-147). -/
def overlayFirst (lm : Message) : List Message → List Message
  | [] => []
  | m :: ms =>
    if m.messageId = lm.messageId then overlay m lm :: ms
    else m :: overlayFirst lm ms

/-- Streaming merge of lines 139-155: when the in-flight message belongs to
the observed conversation, overlay it onto an existing entry with the same
messageId, or append it when it carries non-empty text. -/
def mergeLatest (msgs : List Message) (latest : Option Message) (convId : String) :
    List Message :=
  match latest with
  | none => msgs
  | some lm =>
    if lm.conversationId = convId then
      if msgs.any (fun m => decide (m.messageId = lm.messageId)) then overlayFirst lm msgs
      else if (jsStr lm.text).isSome then msgs ++ [lm]
      else msgs
    else msgs

/-! ## Helper lemmas -/

/-- Every rate stored in the pricing table is positive. -/
lemma table_pos : ∀ kv ∈ MODEL_PRICING, (0 : ℚ) < kv.2 := by decide

/-- Rates returned by `findPrice` come from the table, hence are positive. -/
lemma findPrice_pos (k : String) (p : ℚ) (h : findPrice k = some p) : 0 < p := by
  rw [findPrice] at h
  cases hf : MODEL_PRICING.find? (fun q => decide (q.1 = k)) with
  | none => rw [hf] at h; simp at h
  | some kv =>
    rw [hf] at h
    simp only [Option.map] at h
    injection h with h
    subst h
    exact table_pos kv (List.mem_of_find?_eq_some hf)

/-- The price actually used by the aggregator is always positive. -/
lemma price_pos (k : String) : 0 < jsNumOr (findPrice k) dfltPrice := by
  cases h : findPrice k with
  | none => simp [jsNumOr]; decide
  | some v =>
    by_cases hv : v = 0
    · simp [jsNumOr, hv]; decide
    · simpa [jsNumOr, hv] using findPrice_pos k v h

/-- Claim C5: `resolvePrice` of a null or empty model identifier short-circuits
to the reserved `default` key, whose shipped rate is 1. -/
theorem resolvePrice_null_empty :
    resolvePrice none = dfltPrice ∧ resolvePrice (some ("")) = dfltPrice ∧
    dfltPrice = 1 ∧ getBaseModel none = "default" ∧ getBaseModel (some ("")) = "default" := by
  exact ⟨by decide, by decide, by decide, by decide, by decide⟩

/-! ## C6: gpt-4 family resolution -/

/-- Claim C6: "gpt-4" resolves by exact match and "GPT-4-0613" by the
case-insensitive substring scan to the same bucket "gpt-4" (rate 45), and both
differ from the "gpt-4-32k" rate (90). The last two conjuncts pin down the
scan itself: the lowercase identifier contains the lowercase key "gpt-4",
and the first table entry satisfying the bidirectional scan predicate in
enumeration order is ("gpt-4", 45). -/
theorem resolvePrice_gpt4_family :
    resolvePrice (some ("gpt-4")) = resolvePrice (some ("GPT-4-0613")) ∧
    getBaseModel (some ("gpt-4")) = "gpt-4" ∧
    getBaseModel (some ("GPT-4-0613")) = "gpt-4" ∧
    resolvePrice (some ("gpt-4")) = 45 ∧
    resolvePrice (some ("gpt-4-32k")) = 90 ∧
    resolvePrice (some ("gpt-4")) ≠ resolvePrice (some ("gpt-4-32k")) ∧
    resolvePrice (some ("GPT-4-0613")) ≠ resolvePrice (some ("gpt-4-32k")) ∧
    jsIncludes (toLowerStr ("GPT-4-0613")) (toLowerStr ("gpt-4")) = true ∧
    MODEL_PRICING.find? (scanPred (toLowerStr ("GPT-4-0613"))) = some ((("gpt-4"), 45)) := by
  exact ⟨by decide, by decide, by decide, by decide, by decide, by decide, by decide,
    by decide, by decide⟩

/-! ## C10: totality of the model resolver -/

/-- A message with every optional field absent. -/
def blankMsg : Message :=
  { messageId := "m0"
    conversationId := "c"
    isCreatedByUser := false
    model := none
    tokenCount := none
    usage := none
    tokens := none
    text := none }

/-- A message whose tokenCount is the number 0 but which carries text. -/
def msgTok0 : Message :=
  { blankMsg with
    tokenCount := some 0
    text := some ("aaaa") }

/-- A message with a nonzero tokenCount and text. -/
def msgTok7 : Message :=
  { blankMsg with
    tokenCount := some 7
    text := some ("abcdefgh") }

/-- An assistant message with an explicit model and 100 tokens. -/
def msgM1 : Message :=
  { blankMsg with
    messageId := "a"
    model := some ("gpt-4o")
    tokenCount := some 100 }

/-- A message with 50 tokens and no model of its own (and not user-authored). -/
def msgM2 : Message :=
  { blankMsg with
    messageId := "b"
    tokenCount := some 50 }

/-! ## C1: token count extraction precedence -/

/-- Claim C1 (amended): extraction is first-match-wins on JavaScript
truthiness. A nonzero numeric tokenCount wins outright; with tokenCount
absent or zero, a present usage object wins, then a present tokens object,
all unestimated; the text heuristic ceil(length/4) with isEstimated = true
applies exactly when tokenCount is absent or zero, usage and tokens are
absent, and text is nonempty (the final iff); with tokenCount absent or
zero, usage and tokens absent, and text absent or empty, the result is 0,
not estimated. -/
theorem extractTokens_precedence (m : Message) :
    (∀ n, m.tokenCount = some n → n ≠ 0 → extractTokens m = (n, false)) ∧
    (∀ u, (m.tokenCount = none ∨ m.tokenCount = some 0) → m.usage = some u →
      extractTokens m = (u.prompt_tokens.getD 0 + u.completion_tokens.getD 0, false)) ∧
    (∀ t, (m.tokenCount = none ∨ m.tokenCount = some 0) → m.usage = none →
      m.tokens = some t →
      extractTokens m =
        (natOr t.prompt (t.input.getD 0) + natOr t.completion (t.output.getD 0), false)) ∧
    ((m.tokenCount = none ∨ m.tokenCount = some 0) → m.usage = none → m.tokens = none →
      ∀ s, m.text = some s → s ≠ "" → extractTokens m = ((s.length + 3) / 4, true)) ∧
    ((m.tokenCount = none ∨ m.tokenCount = some 0) → m.usage = none → m.tokens = none →
      (m.text = none ∨ m.text = some ("")) → extractTokens m = (0, false)) ∧
    ((extractTokens m).2 = true ↔
      ((m.tokenCount = none ∨ m.tokenCount = some 0) ∧ m.usage = none ∧ m.tokens = none ∧
        ∃ s, m.text = some s ∧ s ≠ "")) := by
  have hgd : ∀ (h : m.tokenCount = none ∨ m.tokenCount = some 0), m.tokenCount.getD 0 = 0 :=
    fun h => by rcases h with h | h <;> simp [h]
  refine ⟨?_, ?_, ?_, ?_, ?_, ?_, ?_⟩
  · intro n hn hnz
    simp [extractTokens, hn, hnz]
  · intro u h0 hu
    simp [extractTokens, hgd h0, hu]
  · intro t h0 hu ht
    simp [extractTokens, hgd h0, hu, ht]
  · intro h0 hu ht s hs hsn
    simp [extractTokens, hgd h0, hu, ht, hs, hsn, estimateTokens]
  · intro h0 hu ht htext
    rcases htext with h | h <;> simp [extractTokens, hgd h0, hu, ht, h]
  · intro hest
    by_cases h0 : m.tokenCount.getD 0 ≠ 0
    · exfalso
      simp [extractTokens, h0] at hest
    · have hz : m.tokenCount.getD 0 = 0 := not_ne_iff.mp h0
      have h0' : m.tokenCount = none ∨ m.tokenCount = some 0 := by
        cases hc : m.tokenCount with
        | none => exact Or.inl rfl
        | some n =>
          right
          have hz2 : (some n : Option ℕ).getD 0 = 0 := hc ▸ hz
          simp at hz2
          rw [hz2]
      cases hu : m.usage with
      | some u =>
        exfalso
        simp [extractTokens, hz, hu] at hest
      | none =>
        cases ht : m.tokens with
        | some t =>
          exfalso
          simp [extractTokens, hz, hu, ht] at hest
        | none =>
          cases htext : m.text with
          | none =>
            exfalso
            simp [extractTokens, hz, hu, ht, htext] at hest
          | some s =>
            by_cases hs : s = ""
            · exfalso
              simp [extractTokens, hz, hu, ht, htext, hs] at hest
            · exact ⟨h0', rfl, rfl, s, rfl, hs⟩
  · rintro ⟨h0, hu, ht, s, hs, hsn⟩
    simp [extractTokens, hgd h0, hu, ht, hs, hsn]

/-- Claim C1 counterexample: msgTok0 has tokenCount equal to the number 0,
yet extraction does not return (0, not estimated) as the claim predicts; the
zero tokenCount is skipped as falsy and the text heuristic fires. -/
theorem extractTokens_tokenCount_zero_cex :
    msgTok0.tokenCount = some 0 ∧ extractTokens msgTok0 ≠ (0, false) ∧
    extractTokens msgTok0 = (1, true) := by
  exact ⟨by decide, by decide, by decide⟩

/-- Witness: the amended claim C1 applied to the concrete message msgTok7. -/
theorem extractTokens_precedence_witness :
    extractTokens msgTok7 = (7, false) :=
  (extractTokens_precedence msgTok7).1 7 (by decide) (by decide)

/-! ## C2: per-model cost buckets -/

/-- Claim C2 (amended): the per-model mapping is updated exactly when the
message's effective model (own model, or the conversation-wide fallback)
exists, keyed by that effective model; only the user-default path (no
effective model anywhere) leaves the mapping untouched. -/
theorem modelCosts_update (msgs : List Message) (m : Message) (acc : ℚ × ℕ × List (String × ℚ)) :
    (effModel m msgs = none → (stepMsg msgs acc m).2.2 = acc.2.2) ∧
    (∀ em, effModel m msgs = some em → (extractTokens m).1 ≠ 0 →
      (stepMsg msgs acc m).2.2 =
        mapSet acc.2.2 em ((mapGet acc.2.2 em).getD 0 + messageCost msgs m)) := by
  constructor
  · intro he
    by_cases htc : (extractTokens m).1 = 0
    · simp [stepMsg, htc]
    · by_cases hu : m.isCreatedByUser <;> simp [stepMsg, he, htc, hu]
  · intro em hm htc
    simp [stepMsg, hm, htc]

/-- Claim C2 counterexample: msgM2 has no model field of its own, yet
aggregating it after msgM1 changes the per-model mapping: its cost is added
to the "gpt-4o" bucket through the conversation-wide fallback model. -/
theorem modelCosts_fallback_cex :
    msgM2.model = none ∧
    modelCostsOf [msgM1] = [(("gpt-4o"), 1/1000)] ∧
    modelCostsOf [msgM1, msgM2] = [(("gpt-4o"), 3/2000)] ∧
    modelCostsOf [msgM1, msgM2] ≠ modelCostsOf [msgM1] := by
  have h1 : modelCostsOf [msgM1] = [(("gpt-4o"), 1/1000)] := by
    norm_num [modelCostsOf, aggLoop, List.foldl, stepMsg, messageCost, mapGet, mapSet,
      show extractTokens msgM1 = (100, false) from by decide,
      show effModel msgM1 [msgM1] = some ("gpt-4o") from by decide,
      show getBaseModel (some ("gpt-4o")) = "gpt-4o" from by decide,
      show findPrice ("gpt-4o") = some 10 from by decide,
      jsNumOr, dfltPrice]
  have h2 : modelCostsOf [msgM1, msgM2] = [(("gpt-4o"), 3/2000)] := by
    norm_num [modelCostsOf, aggLoop, List.foldl, stepMsg, messageCost, mapGet, mapSet,
      show extractTokens msgM1 = (100, false) from by decide,
      show extractTokens msgM2 = (50, false) from by decide,
      show effModel msgM1 [msgM1, msgM2] = some ("gpt-4o") from by decide,
      show effModel msgM2 [msgM1, msgM2] = some ("gpt-4o") from by decide,
      show getBaseModel (some ("gpt-4o")) = "gpt-4o" from by decide,
      show findPrice ("gpt-4o") = some 10 from by decide,
      jsNumOr, dfltPrice]
  refine ⟨by decide, h1, h2, ?_⟩
  rw [h1, h2]
  simp
  norm_num

/-- Witness: the amended claim C2 applied to the concrete message msgM2 in
the sequence [msgM1, msgM2], whose effective model is the fallback
"gpt-4o". -/
theorem modelCosts_update_witness :
    (stepMsg [msgM1, msgM2] (0, 0, []) msgM2).2.2 =
      mapSet ([]) ("gpt-4o")
        ((mapGet ([]) ("gpt-4o")).getD 0 + messageCost [msgM1, msgM2] msgM2) :=
  (modelCosts_update [msgM1, msgM2] msgM2 (0, 0, [])).2 ("gpt-4o") (by decide) (by decide)

/-! ## C3: single user text message -/

/-- A user-authored message whose only content is a 40-character text. -/
def msgC3 : Message :=
  { blankMsg with
    isCreatedByUser := true
    text := some ("0123456789012345678901234567890123456789") }

/-- Claim C3: a single user message with only a 40-character text and no
model anywhere aggregates to totalTokens 10 and total cost
(0.85 * 10 / 1e6) * rate(gpt-3.5-turbo); the 0.85 discount touches only the
cost, not the token total. -/
theorem single_user_text_message :
    (aggregate [msgC3]).map CostSummary.totalTokens = some 10 ∧
    (aggregate [msgC3]).map CostSummary.totalCostRaw =
      some (85/100 * 10 / 1000000 * resolvePrice (some ("gpt-3.5-turbo"))) := by
  have htok : totalTokensOf [msgC3] = 10 := by decide
  have hcost : totalCostOf [msgC3] =
      85/100 * 10 / 1000000 * resolvePrice (some ("gpt-3.5-turbo")) := by
    norm_num [totalCostOf, aggLoop, List.foldl, stepMsg, messageCost, resolvePrice,
      show extractTokens msgC3 = (10, true) from by decide,
      show effModel msgC3 [msgC3] = none from by decide,
      show msgC3.isCreatedByUser = true from by decide,
      show getBaseModel (some ("gpt-3.5-turbo")) = "gpt-3.5-turbo" from by decide,
      show findPrice ("gpt-3.5-turbo") = some 1 from by decide,
      jsNumOr, dfltPrice]
  constructor <;> simp [aggregate, htok, hcost]

/-! ## C4: tokenCount costing and formatCost tiers -/

/-- An assistant message with tokenCount 1000, model gpt-4o and no text. -/
def msgC4 : Message :=
  { blankMsg with
    model := some ("gpt-4o")
    tokenCount := some 1000 }

/-- The 0.001 threshold of formatCost as a fraction. -/
lemma threshold_milli : Rat.mk' 1 1000 (by norm_num) (by norm_num) = 1/1000 := by
  norm_num [Rat.mk'_eq_divInt, Rat.divInt_eq_div]

/-- The 0.01 threshold of formatCost as a fraction. -/
lemma threshold_centi : Rat.mk' 1 100 (by norm_num) (by norm_num) = 1/100 := by
  norm_num [Rat.mk'_eq_divInt, Rat.divInt_eq_div]

/-- Claim C4: a message with tokenCount 1000 and model gpt-4o costs exactly
(1000/1e6) * 10 = 0.01, and formatCost follows its tier boundaries
first-match-wins, so the value exactly 0.01 lands in the three-decimal tier
and formats as "$0.010". -/
theorem tokenCount_cost_and_format :
    totalCostOf [msgC4] = 1/100 ∧
    (∀ c : ℚ, c = 0 → formatCost c = "$0.00") ∧
    (∀ c : ℚ, c ≠ 0 → c < 1/1000 → formatCost c = "<$0.001") ∧
    (∀ c : ℚ, c ≠ 0 → ¬ c < 1/1000 → c < 1/100 → formatCost c = "$" ++ toFixedStr c 4) ∧
    (∀ c : ℚ, c ≠ 0 → ¬ c < 1/100 → c < 1 → formatCost c = "$" ++ toFixedStr c 3) ∧
    (∀ c : ℚ, c ≠ 0 → ¬ c < 1 → formatCost c = "$" ++ toFixedStr c 2) ∧
    formatCost (1/100) = "$0.010" := by
  have hcost : totalCostOf [msgC4] = 1/100 := by
    norm_num [totalCostOf, aggLoop, List.foldl, stepMsg, messageCost,
      show extractTokens msgC4 = (1000, false) from by decide,
      show effModel msgC4 [msgC4] = some ("gpt-4o") from by decide,
      show getBaseModel (some ("gpt-4o")) = "gpt-4o" from by decide,
      show findPrice ("gpt-4o") = some 10 from by decide,
      jsNumOr, dfltPrice]
  refine ⟨hcost, ?_, ?_, ?_, ?_, ?_, ?_⟩
  · intro c hc
    simp only [formatCost]
    rw [if_pos hc]
  · intro c hc hlt
    simp only [formatCost, threshold_milli, threshold_centi]
    rw [if_neg hc, if_pos hlt]
  · intro c hc hge hlt
    simp only [formatCost, threshold_milli, threshold_centi]
    rw [if_neg hc, if_neg hge, if_pos hlt]
  · intro c hc hge hlt
    have hge3 : ¬ c < 1/1000 := fun habs => hge (habs.trans (by norm_num))
    simp only [formatCost, threshold_milli, threshold_centi]
    rw [if_neg hc, if_neg hge3, if_neg hge, if_pos hlt]
  · intro c hc hge
    have hge3 : ¬ c < 1/1000 := fun habs => hge (habs.trans (by norm_num))
    have hge2 : ¬ c < 1/100 := fun habs => hge (habs.trans (by norm_num))
    simp only [formatCost, threshold_milli, threshold_centi]
    rw [if_neg hc, if_neg hge3, if_neg hge2, if_neg hge]
  · rw [show (1/100 : ℚ) = Rat.mk' 1 100 (by norm_num) (by norm_num) from
      threshold_centi.symm]
    decide

/-- Witness: the formatCost tiers of claim C4 at one concrete value each. -/
theorem tokenCount_cost_and_format_witness :
    formatCost 0 = "$0.00" ∧ formatCost (1/2000) = "<$0.001" ∧
    formatCost (1/200) = "$" ++ toFixedStr (1/200) 4 ∧
    formatCost (1/2) = "$" ++ toFixedStr (1/2) 3 ∧
    formatCost (5/2) = "$" ++ toFixedStr (5/2) 2 := by
  obtain ⟨-, h0, h1, h2, h3, h4, -⟩ := tokenCount_cost_and_format
  exact ⟨h0 0 rfl, h1 (1/2000) (by norm_num) (by norm_num),
    h2 (1/200) (by norm_num) (by norm_num) (by norm_num),
    h3 (1/2) (by norm_num) (by norm_num) (by norm_num),
    h4 (5/2) (by norm_num) (by norm_num)⟩

/-! ## C9: empty input is null, non-empty input always aggregates -/

/-- Claim C9: aggregate of the empty sequence is null (a valid no-data
outcome), and aggregate of any non-empty sequence is a summary value; the
computation is total, with no error path. -/
theorem aggregate_empty_nonempty (msgs : List Message) (h : msgs ≠ []) :
    aggregate ([]) = none ∧ (aggregate msgs).isSome = true := by
  constructor
  · rfl
  · cases msgs with
    | nil => exact absurd rfl h
    | cons a l => simp [aggregate]

/-- Witness: claim C9 applied to the one-element sequence [blankMsg]. -/
theorem aggregate_empty_nonempty_witness :
    aggregate ([]) = none ∧ (aggregate [blankMsg]).isSome = true :=
  aggregate_empty_nonempty [blankMsg] (by simp)

/-! ## C7: streaming merge -/

/-- Overlaying the in-flight message onto an existing entry keeps the
sequence length. -/
lemma overlayFirst_length (lm : Message) (l : List Message) :
    (overlayFirst lm l).length = l.length := by
  induction l with
  | nil => rfl
  | cons a tl ih =>
    rw [overlayFirst]
    split
    · rfl
    · simp [ih]

/-- The overlay happens in place: exactly the first entry with the in-flight
messageId is replaced by the field overlay. -/
lemma overlayFirst_append (lm : Message) (pre : List Message) (m : Message)
    (post : List Message) (hpre : ∀ x ∈ pre, x.messageId ≠ lm.messageId)
    (hm : m.messageId = lm.messageId) :
    overlayFirst lm (pre ++ m :: post) = pre ++ overlay m lm :: post := by
  induction pre with
  | nil => simp [overlayFirst, hm]
  | cons a l ih =>
    have ha : a.messageId ≠ lm.messageId := hpre a (by simp)
    simp only [List.cons_append, overlayFirst, if_neg ha, List.cons.injEq, true_and]
    exact ih (fun x hx => hpre x (by simp [hx]))

/-- Claim C7: when the in-flight message matches the observed conversation,
an existing entry with its messageId is overlaid in place (in-flight fields
winning) and the length is unchanged; with no such entry, the in-flight
message is appended exactly when it carries non-empty text. -/
theorem mergeLatest_spec (msgs : List Message) (lm : Message) (convId : String)
    (h : lm.conversationId = convId) :
    ((∃ m ∈ msgs, m.messageId = lm.messageId) →
      (mergeLatest msgs (some lm) convId).length = msgs.length ∧
      mergeLatest msgs (some lm) convId = overlayFirst lm msgs) ∧
    ((∀ m ∈ msgs, m.messageId ≠ lm.messageId) →
      ((jsStr lm.text).isSome → mergeLatest msgs (some lm) convId = msgs ++ [lm]) ∧
      (¬ (jsStr lm.text).isSome → mergeLatest msgs (some lm) convId = msgs)) ∧
    (∀ pre m post, msgs = pre ++ m :: post →
      (∀ x ∈ pre, x.messageId ≠ lm.messageId) → m.messageId = lm.messageId →
      mergeLatest msgs (some lm) convId = pre ++ overlay m lm :: post) := by
  have hany : (msgs.any (fun m => decide (m.messageId = lm.messageId))) = true ↔
      ∃ m ∈ msgs, m.messageId = lm.messageId := by
    simp [List.any_eq_true]
  refine ⟨?_, ?_, ?_⟩
  · intro hex
    rw [mergeLatest, if_pos h, if_pos (hany.mpr hex)]
    exact ⟨overlayFirst_length lm msgs, rfl⟩
  · intro hall
    have hfalse : ¬ (msgs.any (fun m => decide (m.messageId = lm.messageId)) = true) := by
      intro habs
      obtain ⟨m, hm, hid⟩ := hany.mp habs
      exact hall m hm hid
    constructor
    · intro htext
      rw [mergeLatest, if_pos h, if_neg hfalse, if_pos htext]
    · intro htext
      rw [mergeLatest, if_pos h, if_neg hfalse, if_neg htext]
  · intro pre m post heq hpre hm
    have hex : ∃ x ∈ msgs, x.messageId = lm.messageId := ⟨m, by simp [heq], hm⟩
    rw [mergeLatest, if_pos h, if_pos (hany.mpr hex), heq]
    exact overlayFirst_append lm pre m post hpre hm

/-- A finalized message as it sits in the cache. -/
def msgS1 : Message :=
  { blankMsg with
    messageId := "s1"
    text := some ("hello") }

/-- The in-flight version of msgS1, with longer text and a token count. -/
def lmStream : Message :=
  { blankMsg with
    messageId := "s1"
    text := some ("hello world")
    tokenCount := some 5 }

/-- Witness: claim C7 applied to the concrete in-flight message lmStream
matching the finalized entry msgS1. -/
theorem mergeLatest_spec_witness :
    (mergeLatest [msgS1] (some lmStream) ("c")).length = ([msgS1] : List Message).length ∧
    mergeLatest [msgS1] (some lmStream) ("c") = overlayFirst lmStream [msgS1] :=
  (mergeLatest_spec [msgS1] lmStream ("c") (by decide)).1 ⟨msgS1, by simp, by decide⟩

/-! ## C8: primary model selection -/

/-- Characterization of the primary-model fold: either nothing beats the
running maximum and the running best survives, or the result is the key of
the first entry attaining the overall maximum. -/
lemma primLoop_char (l : List (String × ℚ)) : ∀ (best : String) (mc : ℚ),
    (primLoop l best mc = best ∧ ∀ p ∈ l, p.2 ≤ mc) ∨
    (∃ l₁ k c l₂, l = l₁ ++ (k, c) :: l₂ ∧ primLoop l best mc = k ∧ mc < c ∧
      (∀ p ∈ l, p.2 ≤ c) ∧ (∀ p ∈ l₁, p.2 < c)) := by
  induction l with
  | nil =>
    intro best mc
    left
    exact ⟨rfl, by simp⟩
  | cons hd tl ih =>
    intro best mc
    obtain ⟨k0, c0⟩ := hd
    by_cases hlt : mc < c0
    · rcases ih k0 c0 with ⟨heq, hle⟩ | ⟨l₁, k, c, l₂, hsp, heq, hmc, hle, hst⟩
      · right
        refine ⟨[], k0, c0, tl, by simp, ?_, hlt, ?_, by simp⟩
        · simp [primLoop, hlt, heq]
        · intro p hp
          rcases List.mem_cons.mp hp with h | h
          · rw [h]
          · exact hle p h
      · right
        refine ⟨(k0, c0) :: l₁, k, c, l₂, by rw [hsp, List.cons_append], ?_, lt_trans hlt hmc, ?_, ?_⟩
        · simp [primLoop, hlt, heq]
        · intro p hp
          rcases List.mem_cons.mp hp with h | h
          · rw [h]; exact le_of_lt hmc
          · exact hle p h
        · intro p hp
          rcases List.mem_cons.mp hp with h | h
          · rw [h]; exact hmc
          · exact hst p h
    · rcases ih best mc with ⟨heq, hle⟩ | ⟨l₁, k, c, l₂, hsp, heq, hmc, hle, hst⟩
      · left
        refine ⟨by simp [primLoop, hlt, heq], ?_⟩
        intro p hp
        rcases List.mem_cons.mp hp with h | h
        · rw [h]; exact le_of_not_lt hlt
        · exact hle p h
      · right
        have hc0 : c0 ≤ mc := le_of_not_lt hlt
        refine ⟨(k0, c0) :: l₁, k, c, l₂, by rw [hsp, List.cons_append], ?_, hmc, ?_, ?_⟩
        · simp [primLoop, hlt, heq]
        · intro p hp
          rcases List.mem_cons.mp hp with h | h
          · rw [h]; exact hc0.trans (le_of_lt hmc)
          · exact hle p h
        · intro p hp
          rcases List.mem_cons.mp hp with h | h
          · rw [h]; exact lt_of_le_of_lt hc0 hmc
          · exact hst p h

/-- Reading the per-model map never yields a negative accrued cost when all
entries are positive. -/
lemma mapGet_nonneg (ms : List (String × ℚ)) (k : String)
    (h : ∀ p ∈ ms, 0 < p.2) : 0 ≤ (mapGet ms k).getD 0 := by
  cases hf : ms.find? (fun p => decide (p.1 = k)) with
  | none => simp [mapGet, hf]
  | some kv =>
    simp only [mapGet, hf, Option.map, Option.getD]
    exact le_of_lt (h kv (List.mem_of_find?_eq_some hf))

/-- `Map.set` with a positive value keeps every entry positive. -/
lemma mapSet_pos (ms : List (String × ℚ)) (k : String) (v : ℚ)
    (h : ∀ p ∈ ms, 0 < p.2) (hv : 0 < v) : ∀ p ∈ mapSet ms k v, 0 < p.2 := by
  induction ms with
  | nil =>
    intro p hp
    simp only [mapSet, List.mem_singleton] at hp
    rw [hp]
    exact hv
  | cons a l ih =>
    obtain ⟨k0, v0⟩ := a
    intro p hp
    by_cases hk : k0 = k
    · rw [mapSet, if_pos hk] at hp
      rcases List.mem_cons.mp hp with hh | hh
      · rw [hh]; exact hv
      · exact h p (List.mem_cons_of_mem _ hh)
    · rw [mapSet, if_neg hk] at hp
      rcases List.mem_cons.mp hp with hh | hh
      · rw [hh]; exact h (k0, v0) (by simp)
      · exact ih (fun q hq => h q (List.mem_cons_of_mem _ hq)) p hh

/-- Every message that contributes to a bucket contributes a positive
cost. -/
lemma messageCost_pos (msgs : List Message) (m : Message)
    (h : (extractTokens m).1 ≠ 0) : 0 < messageCost msgs m := by
  have htc : (0 : ℚ) < ((extractTokens m).1 : ℚ) := by
    exact_mod_cast Nat.pos_of_ne_zero h
  simp only [messageCost]
  refine mul_pos (div_pos ?_ (by norm_num)) (price_pos _)
  split_ifs
  · exact mul_pos htc (by norm_num)
  · exact htc

/-- One aggregation step keeps every bucket positive. -/
lemma step_preserves_pos (msgs : List Message) (m : Message)
    (acc : ℚ × ℕ × List (String × ℚ)) (h : ∀ p ∈ acc.2.2, 0 < p.2) :
    ∀ p ∈ (stepMsg msgs acc m).2.2, 0 < p.2 := by
  by_cases htc : (extractTokens m).1 = 0
  · simpa [stepMsg, htc] using h
  · cases he : effModel m msgs with
    | some em =>
      simp only [stepMsg, he, if_neg htc]
      exact mapSet_pos _ _ _ h
        (add_pos_of_nonneg_of_pos (mapGet_nonneg _ _ h) (messageCost_pos msgs m htc))
    | none =>
      by_cases hu : m.isCreatedByUser <;> simpa [stepMsg, he, htc, hu] using h

/-- The whole aggregation loop keeps every bucket positive. -/
lemma aggLoop_pos (l msgs : List Message) :
    ∀ acc : ℚ × ℕ × List (String × ℚ), (∀ p ∈ acc.2.2, 0 < p.2) →
    ∀ p ∈ (l.foldl (stepMsg msgs) acc).2.2, 0 < p.2 := by
  induction l with
  | nil => intro acc h; simpa using h
  | cons a l ih =>
    intro acc h
    rw [List.foldl_cons]
    exact ih _ (step_preserves_pos msgs a acc h)

/-- All accrued per-model costs of an aggregation are positive. -/
lemma modelCosts_pos (msgs : List Message) : ∀ p ∈ modelCostsOf msgs, 0 < p.2 :=
  aggLoop_pos msgs msgs (0, 0, []) (by simp)

/-- Claim C8: the primary model of a non-empty per-model mapping is the key
with the maximum accrued cost, ties going to the earlier-enumerated key; an
empty mapping yields "Unknown"; and {A: 0.05, B: 0.07} selects B. -/
theorem primary_model_selection (msgs : List Message) (h : modelCostsOf msgs ≠ []) :
    selectPrimary ([]) = "Unknown" ∧
    selectPrimary [(("A"), 1/20), (("B"), 7/100)] = "B" ∧
    Option.map CostSummary.primaryModel (aggregate msgs) =
      some (selectPrimary (modelCostsOf msgs)) ∧
    ∃ l₁ k c l₂, modelCostsOf msgs = l₁ ++ (k, c) :: l₂ ∧
      selectPrimary (modelCostsOf msgs) = k ∧
      (∀ p ∈ modelCostsOf msgs, p.2 ≤ c) ∧ (∀ p ∈ l₁, p.2 < c) := by
  refine ⟨rfl, ?_, ?_, ?_⟩
  · norm_num [selectPrimary, primLoop]
  · have hm : msgs ≠ [] := by
      intro he
      apply h
      rw [he]
      rfl
    cases msgs with
    | nil => exact absurd rfl hm
    | cons a l => simp [aggregate, selectPrimary]
  · rcases primLoop_char (modelCostsOf msgs) ("Unknown") 0 with ⟨heq, hle⟩ | hchar
    · cases hmc : modelCostsOf msgs with
      | nil => exact absurd hmc h
      | cons a l =>
        have hpos : 0 < a.2 := modelCosts_pos msgs a (by rw [hmc]; simp)
        have hnp : a.2 ≤ 0 := hle a (by rw [hmc]; simp)
        exact absurd hpos (not_lt.mpr hnp)
    · obtain ⟨l₁, k, c, l₂, hsp, heq, _, hle, hst⟩ := hchar
      exact ⟨l₁, k, c, l₂, hsp, by rw [selectPrimary]; exact heq, hle, hst⟩

/-- An assistant message on gpt-4o worth 0.05 dollars. -/
def msgP1 : Message :=
  { blankMsg with
    messageId := "p1"
    model := some ("gpt-4o")
    tokenCount := some 5000 }

/-- An assistant message on gpt-3.5-turbo worth 0.07 dollars. -/
def msgP2 : Message :=
  { blankMsg with
    messageId := "p2"
    model := some ("gpt-3.5-turbo")
    tokenCount := some 70000 }

/-- Witness: claim C8 applied to the concrete two-model conversation
[msgP1, msgP2], whose per-model mapping is non-empty. -/
theorem primary_model_selection_witness :
    modelCostsOf [msgP1, msgP2] ≠ [] ∧
    Option.map CostSummary.primaryModel (aggregate [msgP1, msgP2]) =
      some (selectPrimary (modelCostsOf [msgP1, msgP2])) := by
  have h : modelCostsOf [msgP1, msgP2] ≠ [] := by decide
  exact ⟨h, (primary_model_selection [msgP1, msgP2] h).2.2.1⟩

end ConversationCost
